import Mathlib

set_option maxRecDepth 8000

/-!
Verification of the WebTwin extraction core (`src/extractor.py`,
class `WebsiteExtractor`).  The pipeline is shallowly embedded: the
filesystem is a list of file paths (each path a list of components),
network and disk effects are oracles passed in an environment, and
each method of the class becomes an executable Lean function that is
traced line by line from the Python source.  Python standard-library
helpers (`urllib.parse`, `os.path`) are modelled for the URL shapes
the extractor handles (absolute `scheme://` URLs and plain relative
references); the models are executable and structurally recursive so
that concrete runs evaluate inside the kernel.
-/

namespace WebTwin

/-- Resource categories: the keys of the `resource_selectors` table in
`WebsiteExtractor._extract_resources` (`css`, `js`, `images`, `fonts`). -/
inductive Category
  | css
  | js
  | images
  | fonts
deriving DecidableEq, Repr

/-- The `folder` field of each `resource_selectors` entry: the
subdirectory of the working directory that receives downloads of
that category. -/
def Category.folder : Category → String
  | .css => "css"
  | .js => "js"
  | .images => "images"
  | .fonts => "fonts"

/-- The `ext_map` table of `_download_resource`, used when a filename
must be synthesized.  Every category is a key of the table, so the
`.get(resource_type, ".txt")` default is never taken. -/
def Category.defaultExt : Category → String
  | .css => ".css"
  | .js => ".js"
  | .images => ".jpg"
  | .fonts => ".woff"

/-- The fixed order in which `_extract_resources` iterates the
`resource_selectors` dict (Python dict insertion order). -/
def categoryOrder : List Category := [.css, .js, .images, .fonts]

/-! ## Models of the Python standard-library helpers -/

/-- Scan for the first `"://"` in a character list, returning the part
before it and the part after it.  This is the scheme/authority split
that `urllib.parse.urlparse` performs on the absolute `http(s)` URLs
the extractor works with. -/
def breakScheme : List Char → Option (List Char × List Char)
  | [] => none
  | ':' :: '/' :: '/' :: rest => some ([], rest)
  | c :: rest => (breakScheme rest).map fun sr => (c :: sr.1, sr.2)

/-- Scheme of an absolute URL (`urlparse(url).scheme` for `scheme://...`). -/
def urlScheme (url : String) : String :=
  match breakScheme url.data with
  | some sr => ⟨sr.1⟩
  | none => ""

/-- Host part of an absolute URL (`urlparse(url).netloc` for `scheme://...`). -/
def netloc (url : String) : String :=
  match breakScheme url.data with
  | some sr => ⟨sr.2.takeWhile fun c => c != '/' && c != '?' && c != '#'⟩
  | none => ""

/-- Path component of a URL (`urlparse(url).path`): the text after the
authority and before any query or fragment. -/
def urlPath (url : String) : String :=
  let core := url.data.takeWhile fun c => c != '?' && c != '#'
  match breakScheme core with
  | some sr => ⟨sr.2.dropWhile fun c => c != '/'⟩
  | none => ⟨core⟩

/-- Value of a hex digit, as used by percent-decoding. -/
def hexVal (c : Char) : Option Nat :=
  if '0' ≤ c ∧ c ≤ '9' then some (c.toNat - 48)
  else if 'a' ≤ c ∧ c ≤ 'f' then some (c.toNat - 87)
  else if 'A' ≤ c ∧ c ≤ 'F' then some (c.toNat - 55)
  else none

/-- Percent-decoding over characters (`urllib.parse.unquote`, modelled
for single-byte escapes).  The fuel argument is a recursion budget; at
least one character is consumed per step, so a budget of the input
length is always enough. -/
def unquoteAux : Nat → List Char → List Char
  | 0, l => l
  | _ + 1, [] => []
  | fuel + 1, c :: rest =>
    if c = '%' then
      match rest with
      | a :: b :: rest' =>
        match hexVal a, hexVal b with
        | some x, some y => Char.ofNat (16 * x + y) :: unquoteAux fuel rest'
        | _, _ => '%' :: unquoteAux fuel rest
      | _ => '%' :: unquoteAux fuel rest
    else c :: unquoteAux fuel rest

/-- Percent-decoding (`urllib.parse.unquote`). -/
def unquote (s : String) : String := ⟨unquoteAux s.data.length s.data⟩

/-- Final path segment (`os.path.basename` with POSIX separators):
everything after the last `/`. -/
def basename (p : String) : String :=
  ⟨(p.data.reverse.takeWhile fun c => c != '/').reverse⟩

/-- Split a filename into stem and extension (`os.path.splitext`): the
extension starts at the last dot, except that a name consisting only
of leading dots has no extension. -/
def splitext (s : String) : String × String :=
  match s.data.reverse.findIdx? (fun c => c == '.') with
  | none => (s, "")
  | some k =>
    let dotPos := s.data.length - 1 - k
    if (s.data.take dotPos).all (fun c => c == '.') then (s, "")
    else (⟨s.data.take dotPos⟩, ⟨s.data.drop dotPos⟩)

/-- Directory part of a URL path, kept up to and including the final
slash; an empty or slash-free path resolves to the root, matching how
`urljoin` rebases a plain relative reference. -/
def dirOf (p : String) : String :=
  if p.data.any (fun c => c == '/') then
    ⟨(p.data.reverse.dropWhile fun c => c != '/').reverse⟩
  else "/"

/-- Base-URL resolution (`urllib.parse.urljoin`) for the reference
shapes the extractor meets: absolute URLs, scheme-relative (`//h/p`),
root-relative (`/p`) and plain relative references.  Dot-segment
normalization and query merging are outside the model. -/
def urljoin (base rel : String) : String :=
  match breakScheme rel.data with
  | some _ => rel
  | none =>
    match rel.data with
    | [] => base
    | '/' :: '/' :: _ => urlScheme base ++ ":" ++ rel
    | '/' :: _ => urlScheme base ++ "://" ++ netloc base ++ rel
    | _ => urlScheme base ++ "://" ++ netloc base ++ dirOf (urlPath base) ++ rel

/-- Python `str.replace('\\', '/')` (a single-character replacement,
hence a character map). -/
def fixSeps (s : String) : String :=
  ⟨s.data.map fun c => if c = '\\' then '/' else c⟩

/-- Join path components with `/`, as `os.path.relpath` renders a
relative path on a POSIX host. -/
def joinPath : List String → String
  | [] => ""
  | [a] => a
  | a :: rest => a ++ "/" ++ joinPath rest

/-! ## Filesystem model

A file path is its list of components; the filesystem of a run is the
list of files that exist.  Directories are implicit (`os.makedirs`
with `exist_ok=True` never fails and creates no file entry). -/

/-- A file path, as its list of components. -/
abbrev FsPath := List String

/-- The set of existing files, as a list of paths. -/
abbrev FS := List FsPath

/-- Whether `p` lies inside the directory `dir` (the path-component
prefix test; used for `shutil.rmtree` and `os.walk`). -/
def underDir : FsPath → FsPath → Bool
  | [], _ => true
  | _ :: _, [] => false
  | a :: d, b :: p => a == b && underDir d p

/-! ## AssetDownloader: `_download_resource` -/

/-- Filename derivation of `_download_resource` (lines 294-305):
`filename = os.path.basename(unquote(urlparse(url).path))`, replaced by
`resource_<n><default-ext>` when empty or without a dot, where `<n>` is
`len(self.extracted_resources)` at the time of the call. -/
def deriveFilename (cat : Category) (nExtracted : Nat) (url : String) : String :=
  let fname := basename (unquote (urlPath url))
  if fname = "" || !(fname.data.any fun c => c == '.') then
    "resource_" ++ Nat.repr nExtracted ++ cat.defaultExt
  else fname

/-- The candidate tried at loop counter `k` by the collision loop of
`_download_resource`: `f'{name}_{counter}{ext}'` with `name, ext =
os.path.splitext(filename)` recomputed from the original filename. -/
def candidateName (fname : String) (k : Nat) : String :=
  (splitext fname).1 ++ "_" ++ Nat.repr k ++ (splitext fname).2

/-- The `while os.path.exists(target_path)` loop of `_download_resource`
(lines 312-317): starting from the derived filename and counter 1, try
`name_<counter><ext>` until the name is free.  The fuel bounds the
number of iterations; a budget of one more than the number of existing
files is enough whenever the filesystem list has no duplicates, since
the candidates are pairwise distinct. -/
def uniquifyAux (taken : String → Bool) (orig : String) : String → Nat → Nat → String
  | cur, _, 0 => cur
  | cur, counter, fuel + 1 =>
    if taken cur then uniquifyAux taken orig (candidateName orig counter) (counter + 1) fuel
    else cur

/-- Target path chosen by `_download_resource` inside the category
directory `dir`, after collision resolution against the filesystem. -/
def uniqueTarget (fs : FS) (dir : FsPath) (fname : String) : FsPath :=
  dir ++ [uniquifyAux (fun s => decide ((dir ++ [s]) ∈ fs)) fname fname 1 (fs.length + 1)]

/-- Result of one `_download_resource` call: the written path and byte
count on success (`None` is modelled as `none`), the filesystem after
the call, and the filename the naming logic chose (recorded for the
proofs; the Python function computes it at lines 294-305). -/
structure DlOutcome where
  path : Option (FsPath × Nat)
  fs : FS
  fname : String
deriving Repr, DecidableEq

/-- Model of `WebsiteExtractor._download_resource`.  The `download`
oracle stands for `self.session.get(url, timeout=10, stream=True)`
followed by the chunked write: `.ok n` means the body of `n` bytes was
written, `.error e` any `requests` or I/O exception.  The enclosing
`try/except` catches every exception, prints, and returns `None`
(lines 329-331), so no failure is recorded anywhere here and the
filesystem is unchanged on failure. -/
def downloadResource (download : String → Except String Nat) (fs : FS)
    (workDir : FsPath) (nExtracted : Nat) (url : String) (cat : Category) :
    DlOutcome :=
  let fname := deriveFilename cat nExtracted url
  let dir := workDir ++ [cat.folder]
  let target := uniqueTarget fs dir fname
  match download url with
  | .ok size => ⟨some (target, size), target :: fs, fname⟩
  | .error _ => ⟨none, fs, fname⟩

/-! ## AssetDownloader loop: `_extract_resources` -/

/-- An entry of `self.extracted_resources` (lines 272-277). -/
structure ExtractedResource where
  rtype : Category
  originalUrl : String
  localPath : FsPath
  size : Nat
deriving Repr, DecidableEq

/-- An entry of `self.failed_resources` (lines 280-284).  The append
sits in an `except` arm that only runs when an exception escapes the
loop body; `_download_resource` itself catches every exception and
returns `None`, so a failed download never reaches it. -/
structure FailedResource where
  url : String
  error : String
  rtype : Category
deriving Repr, DecidableEq

/-- What the loop of `_extract_resources` did to one HTML element:
its category, the URL attribute before and after the loop body, the
local path written for it (if its download succeeded), the filename
the naming logic chose, and the absolute URL it resolved to.  The last
two fields are `none` for elements skipped at line 254-255. -/
structure ElemTrace where
  rtype : Category
  origAttr : Option String
  newAttr : Option String
  localPath : Option FsPath
  fname : Option String
  absUrl : Option String
deriving Repr, DecidableEq

/-- Mutable state of one `_extract_resources` run: the filesystem, the
two result lists, the `processed_resources` counter, and the sequence
of `progress_callback` invocations. -/
structure DlState where
  fs : FS
  extracted : List ExtractedResource
  failed : List FailedResource
  processed : Nat
  events : List (Nat × String)
deriving Repr, DecidableEq

/-- Python truthiness test of `if not resource_url: continue`:
the element is processed only when the attribute is present and
non-empty. -/
def isLive : Option String → Bool
  | none => false
  | some a => decide (a ≠ "")

/-- Progress value emitted after each processed resource (line 287):
`35 + int((processed / total) * 40)`, with the float truncation
modelled as natural-number division. -/
def progressAt (processed total : Nat) : Nat := 35 + processed * 40 / total

/-- Status string of line 288. -/
def statusMsg (processed total : Nat) : String :=
  "已处理 " ++ Nat.repr processed ++ "/" ++ Nat.repr total ++ " 个资源..."

/-- One iteration of the element loop of `_extract_resources`
(lines 251-288).  An element with a missing or empty URL attribute is
skipped before the counter and the progress report.  Otherwise the URL
is resolved against the page URL, `_download_resource` is called with
`len(self.extracted_resources)`, and on success the attribute is
rewritten to `os.path.relpath(local_path, full_output_path)` with
backslashes replaced, and an `ExtractedResource` is appended whose size
is that of the file just written.  On failure the attribute and the
lists are untouched (the `except` arm is unreachable, see
`FailedResource`). -/
def processElement (download : String → Except String Nat) (baseUrl : String)
    (workDir : FsPath) (total : Nat) (st : DlState) (cat : Category)
    (attr : Option String) : DlState × ElemTrace :=
  match attr with
  | none => (st, ⟨cat, none, none, none, none, none⟩)
  | some a =>
    if a = "" then (st, ⟨cat, some a, some a, none, none, none⟩)
    else
      let absUrl := urljoin baseUrl a
      let d := downloadResource download st.fs workDir st.extracted.length absUrl cat
      let newAttr : Option String :=
        match d.path with
        | some pn => some (fixSeps (joinPath (pn.1.drop workDir.length)))
        | none => some a
      let extracted' :=
        match d.path with
        | some pn => st.extracted ++ [⟨cat, absUrl, pn.1, pn.2⟩]
        | none => st.extracted
      let processed' := st.processed + 1
      ({ fs := d.fs, extracted := extracted', failed := st.failed,
         processed := processed',
         events := st.events ++ [(progressAt processed' total, statusMsg processed' total)] },
       ⟨cat, some a, newAttr, d.path.map Prod.fst, some d.fname, some absUrl⟩)

/-- The element loop of `_extract_resources`, over the flattened
per-category element list, threading the state and collecting one
trace per element. -/
def processList (download : String → Except String Nat) (baseUrl : String)
    (workDir : FsPath) (total : Nat) :
    DlState → List (Category × Option String) → DlState × List ElemTrace
  | st, [] => (st, [])
  | st, ca :: rest =>
    let r := processElement download baseUrl workDir total st ca.1 ca.2
    let rr := processList download baseUrl workDir total r.1 rest
    (rr.1, r.2 :: rr.2)

/-- The elements found by the four `soup.select` queries, flattened in
the iteration order of `resource_selectors` (css, js, images, fonts;
within a category, document order).  Element discovery itself
(BeautifulSoup) is taken as input: `elems c` is the list of URL
attribute values of the elements matching category `c`. -/
def flatElems (elems : Category → List (Option String)) :
    List (Category × Option String) :=
  categoryOrder.flatMap fun c => (elems c).map fun a => (c, a)

/-- Status string of line 245. -/
def discoveryMsg (total : Nat) : String :=
  "发现 " ++ Nat.repr total ++ " 个资源，开始下载..."

/-- Model of `WebsiteExtractor._extract_resources` (lines 208-288).
With `include_assets` unset it returns at once, leaving every element
untouched.  Otherwise it counts all matched elements (including ones
later skipped for an empty attribute), reports the discovery, and runs
the element loop. -/
def extractResources (download : String → Except String Nat) (baseUrl : String)
    (workDir : FsPath) (includeAssets : Bool)
    (elems : Category → List (Option String)) (fs : FS) :
    DlState × List ElemTrace :=
  if includeAssets then
    let flat := flatElems elems
    let total := flat.length
    processList download baseUrl workDir total
      ⟨fs, [], [], 0, [(35, discoveryMsg total)]⟩ flat
  else
    (⟨fs, [], [], 0, []⟩, (flatElems elems).map fun ca => ⟨ca.1, ca.2, ca.2, none, none, none⟩)

/-! ## ContentFetcher, Archiver, pipeline -/

/-- Caller-supplied configuration: `use_selenium` and `include_assets`
from the config dict, plus the module-level `SELENIUM_AVAILABLE` flag.
Timeouts and depth do not affect the modelled control flow. -/
structure Config where
  useSelenium : Bool
  seleniumAvailable : Bool
  includeAssets : Bool

/-- Environment of one run.  `render` is the browser black box of
`_extract_with_selenium` (driver startup, navigation, waits, and
`page_source`; `.error` is any Selenium exception), `static` the
`self.session.get` of `_extract_with_requests` (`.error` is any
transport error or bad status raised by `raise_for_status`), `download`
the per-asset GET of `_download_resource`, `archiveError` an I/O error
raised while writing the ZIP archive (after `ZipFile(..., 'w')` has
created the file), and the two strings stand for the `datetime.now()`
calls of lines 84 and 368. -/
structure Env where
  render : Except String String
  static : Except String String
  download : String → Except String Nat
  archiveError : Option String
  timestamp : String
  manifestTime : String

/-- Model of `_extract_with_requests` (lines 189-206): emits its
progress messages and either returns the page text or raises
`'HTTP请求失败: ...'`. -/
def extractWithRequests (env : Env) : List (Nat × String) × Except String String :=
  match env.static with
  | .ok text =>
    ([(10, "发送HTTP请求..."), (25, "HTTP请求完成，获取页面内容...")], .ok text)
  | .error e =>
    ([(10, "发送HTTP请求...")], .error ("HTTP请求失败: " ++ e))

/-- Model of `_extract_with_selenium` (lines 139-187): on any rendering
failure it reports `'Selenium提取失败: ...'` at progress 0 and falls
back to `_extract_with_requests`; an exception raised by that fallback
escapes.  Rendering is one black-box step, so the mid-render progress
messages are attached to the success case. -/
def extractWithSelenium (env : Env) : List (Nat × String) × Except String String :=
  match env.render with
  | .ok html =>
    ([(10, "启动Chrome浏览器..."), (15, "正在加载网页..."),
      (25, "页面加载完成，获取渲染后的HTML...")], .ok html)
  | .error e =>
    let r := extractWithRequests env
    ([(10, "启动Chrome浏览器..."), (0, "Selenium提取失败: " ++ e)] ++ r.1, r.2)

/-- The fetch dispatch of `extract_website` lines 92-95. -/
def fetchResult (cfg : Config) (env : Env) : List (Nat × String) × Except String String :=
  if cfg.useSelenium && cfg.seleniumAvailable then extractWithSelenium env
  else extractWithRequests env

/-- Directory name `f'webtwin_{self.domain}_{timestamp}'` (line 85). -/
def outputDirOf (url ts : String) : String :=
  "webtwin_" ++ netloc url ++ "_" ++ ts

/-- The staging directory `os.path.join('downloads', self.output_dir)`
(line 86) — the WorkingDirectory of the run. -/
def workDirOf (url ts : String) : FsPath :=
  ["downloads", outputDirOf url ts]

/-- The archive path `os.path.join('downloads', f'{self.output_dir}.zip')`
(lines 351-352). -/
def zipPathOf (url ts : String) : FsPath :=
  ["downloads", outputDirOf url ts ++ ".zip"]

/-- Writing of `index.html` by `_save_html` (lines 333-347); only the
file's existence matters to the archive walk. -/
def saveHtml (workDir : FsPath) (fs : FS) : FS :=
  (workDir ++ ["index.html"]) :: fs

/-- The manifest text written as `WebTwin_Info.txt` (lines 364-388),
with the success/failure counts taken from the two result lists. -/
def infoContent (baseUrl : String) (useSelenium : Bool) (time : String)
    (nOk nFail : Nat) : String :=
  "WebTwin 提取信息\n===================\n\n目标URL: " ++ baseUrl ++
  "\n提取时间: " ++ time ++ "\n提取模式: " ++
  (if useSelenium then "Selenium (高级渲染)" else "HTTP请求 (基础模式)") ++
  "\n\n资源统计:\n- 成功提取: " ++ Nat.repr nOk ++
  " 个文件\n- 提取失败: " ++ Nat.repr nFail ++
  " 个文件\n\n文件结构:\n- index.html: 主页面文件\n- css/: CSS样式文件\n- js/: JavaScript脚本文件\n- images/: 图片资源文件\n- fonts/: 字体文件\n\n使用说明:\n1. 解压此ZIP文件到任意目录\n2. 使用浏览器打开 index.html 文件\n3. 或在代码编辑器中打开进行分析\n\n由 WebTwin v1.0 生成\n"

/-- The produced archive: its entry names in the order written, and
the content of the manifest entry. -/
structure ZipArchive where
  entries : List String
  manifest : String
deriving Repr, DecidableEq

/-- The `os.walk` of `_create_zip_archive` (lines 356-361): every file
strictly inside the working directory, under its path relative to that
directory with `/` separators. -/
def walkEntries (fs : FS) (workDir : FsPath) : List String :=
  (fs.filter fun p => underDir workDir p && decide (workDir.length < p.length)).map
    fun p => joinPath (p.drop workDir.length)

/-- Model of `_create_zip_archive` (lines 349-391).  `ZipFile(zip_path,
'w')` creates the archive file; if writing then fails, the exception
propagates with the partial file still present (nothing removes it).
Otherwise every file of the walk is written and the manifest entry is
appended last via `writestr`. -/
def createZipArchive (env : Env) (cfg : Config) (baseUrl : String)
    (workDir : FsPath) (outputDir : String) (fs : FS)
    (extracted : List ExtractedResource) (failed : List FailedResource) :
    Except String (FsPath × ZipArchive) × FS :=
  let zipPath : FsPath := ["downloads", outputDir ++ ".zip"]
  let fs' := zipPath :: fs
  match env.archiveError with
  | some e => (.error e, fs')
  | none =>
    (.ok (zipPath,
      ⟨walkEntries fs' workDir ++ ["WebTwin_Info.txt"],
       infoContent baseUrl cfg.useSelenium env.manifestTime extracted.length failed.length⟩),
     fs')

/-- The result dict of `extract_website`: the failure dicts of lines
98-101 and 131-135 carry only `success` and `error`, modelled with
empty lists and `none` for the absent keys.  The `stats` entry repeats
the two list lengths; `output_size` (a byte count of the archive) is
outside the filesystem model. -/
structure Outcome where
  success : Bool
  error : Option String
  outputPath : Option FsPath
  resources : List ExtractedResource
  failedResources : List FailedResource
deriving Repr, DecidableEq

/-- Everything observable about one run: the returned outcome, the
final filesystem, the `progress_callback` trace, the per-element
traces, the archive if one was completed, and how many times
`_cleanup` ran. -/
structure RunResult where
  outcome : Outcome
  fs : FS
  events : List (Nat × String)
  traces : List ElemTrace
  archive : Option ZipArchive
  cleanups : Nat
deriving Repr, DecidableEq

/-- The `try` body of `extract_website` (lines 78-135): fetch, the
empty-content check of line 97, resource extraction, `_save_html`,
archiving, and the assembly of the result dict; any raised exception
becomes the `except` dict of lines 131-135. -/
def extractWebsiteBody (cfg : Config) (env : Env)
    (elems : Category → List (Option String)) (url : String) (fs0 : FS) :
    Outcome × FS × List (Nat × String) × List ElemTrace × Option ZipArchive :=
  let outputDir := outputDirOf url env.timestamp
  let workDir := workDirOf url env.timestamp
  let ev0 : List (Nat × String) := [(5, "初始化完成，开始提取网站...")]
  let fr := fetchResult cfg env
  match fr.2 with
  | .error e => (⟨false, some e, none, [], []⟩, fs0, ev0 ++ fr.1, [], none)
  | .ok html =>
    if html = "" then
      (⟨false, some "无法获取网站内容", none, [], []⟩, fs0, ev0 ++ fr.1, [], none)
    else
      let evParse : List (Nat × String) := [(30, "网页内容获取完成，开始解析资源...")]
      let r := extractResources env.download url workDir cfg.includeAssets elems fs0
      let st := r.1
      let evPack : List (Nat × String) := [(80, "资源提取完成，正在打包文件...")]
      let fs1 := saveHtml workDir st.fs
      match createZipArchive env cfg url workDir outputDir fs1 st.extracted st.failed with
      | (.error e, fs2) =>
        (⟨false, some e, none, [], []⟩, fs2,
         ev0 ++ fr.1 ++ evParse ++ st.events ++ evPack, r.2, none)
      | (.ok za, fs2) =>
        (⟨true, none, some za.1, st.extracted, st.failed⟩, fs2,
         ev0 ++ fr.1 ++ evParse ++ st.events ++ evPack ++ [(100, "提取完成！")],
         r.2, some za.2)

/-- Model of `_cleanup` (lines 393-407): remove the working directory
tree, counting the invocation.  The driver teardown has no filesystem
effect. -/
def runCleanup (workDir : FsPath) (fs : FS) (n : Nat) : FS × Nat :=
  (fs.filter fun p => !underDir workDir p, n + 1)

/-- Model of `WebsiteExtractor.extract_website` (lines 68-137): run the
`try` body, then — on every exit path, via the `finally` clause — run
`_cleanup` once before the result reaches the caller. -/
def extractWebsite (cfg : Config) (env : Env)
    (elems : Category → List (Option String)) (url : String) (fs0 : FS) :
    RunResult :=
  let b := extractWebsiteBody cfg env elems url fs0
  let c := runCleanup (workDirOf url env.timestamp) b.2.1 0
  ⟨b.1, c.1, b.2.2.1, b.2.2.2.1, b.2.2.2.2, c.2⟩

/-- Entry names of the produced archive (empty when no archive was
completed). -/
def RunResult.archEntries (r : RunResult) : List String :=
  (r.archive.map ZipArchive.entries).getD []

/-- Manifest content of the produced archive, when one was completed. -/
def RunResult.archManifest (r : RunResult) : Option String :=
  r.archive.map ZipArchive.manifest

/-! ## Basic lemmas about the path and string models -/

theorem underDir_append (d l : FsPath) : underDir d (d ++ l) = true := by
  induction d with
  | nil => rfl
  | cons a d ih => simp [underDir, ih]

theorem data_append (s t : String) : (s ++ t).data = s.data ++ t.data := by
  cases s; cases t; rfl

theorem self_ne_append {s t : String} (h : t.data ≠ []) : s ≠ s ++ t := by
  intro he
  have h1 : s.data = s.data ++ t.data := by
    conv_lhs => rw [he]
    exact data_append s t
  have h2 := congrArg List.length h1
  simp only [List.length_append] at h2
  have : t.data.length = 0 := by omega
  exact h (List.length_eq_zero.mp this)

theorem underDir_workDir_zip (url ts : String) :
    underDir (workDirOf url ts) (zipPathOf url ts) = false := by
  have h : outputDirOf url ts ≠ outputDirOf url ts ++ ".zip" :=
    self_ne_append (by decide)
  simp [workDirOf, zipPathOf, underDir, h]

theorem joinPath_pair (a b : String) : joinPath [a, b] = a ++ "/" ++ b := rfl

theorem fixSeps_eq_self {s : String} (h : s.data.all (fun c => c != '\\') = true) :
    fixSeps s = s := by
  cases s with
  | mk l =>
    simp only [List.all_eq_true] at h
    have hmap : l.map (fun c => if c = '\\' then '/' else c) = l := by
      calc l.map (fun c => if c = '\\' then '/' else c)
          = l.map id := List.map_congr_left (by
            intro c hc
            have := h c hc
            simp only [bne_iff_ne, ne_eq] at this
            simp [this])
        _ = l := List.map_id l
    simp only [fixSeps]
    exact congrArg String.mk hmap

/-! ## Case lemmas for one download and one loop iteration -/

theorem uniqueTarget_shape (fs : FS) (dir : FsPath) (fname : String) :
    ∃ n, uniqueTarget fs dir fname = dir ++ [n] := ⟨_, rfl⟩

theorem downloadResource_cases (dl : String → Except String Nat) (fs : FS)
    (w : FsPath) (n : Nat) (url : String) (cat : Category) :
    ((downloadResource dl fs w n url cat).path = none ∧
      (downloadResource dl fs w n url cat).fs = fs) ∨
    (∃ m sz, (downloadResource dl fs w n url cat).path =
        some (w ++ [Category.folder cat, m], sz) ∧
      (downloadResource dl fs w n url cat).fs =
        (w ++ [Category.folder cat, m]) :: fs) := by
  obtain ⟨m, hm⟩ :=
    uniqueTarget_shape fs (w ++ [cat.folder]) (deriveFilename cat n url)
  have hm' : uniqueTarget fs (w ++ [cat.folder]) (deriveFilename cat n url) =
      w ++ [Category.folder cat, m] := by
    rw [hm, List.append_assoc]; rfl
  unfold downloadResource
  cases hdl : dl url with
  | ok sz => right; exact ⟨m, sz, by simp [hdl, hm'], by simp [hdl, hm']⟩
  | error e => left; exact ⟨by simp [hdl], by simp [hdl]⟩

theorem downloadResource_fname (dl : String → Except String Nat) (fs : FS)
    (w : FsPath) (n : Nat) (url : String) (cat : Category) :
    (downloadResource dl fs w n url cat).fname = deriveFilename cat n url := by
  unfold downloadResource
  cases hdl : dl url <;> simp [hdl]

theorem processElement_skip (dl : String → Except String Nat) (u : String)
    (w : FsPath) (t : Nat) (st : DlState) (cat : Category) (attr : Option String)
    (h : isLive attr = false) :
    processElement dl u w t st cat attr = (st, ⟨cat, attr, attr, none, none, none⟩) := by
  cases attr with
  | none => rfl
  | some a =>
    simp only [isLive, decide_eq_false_iff_not, ne_eq, not_not] at h
    simp [processElement, h]

theorem processElement_live (dl : String → Except String Nat) (u : String)
    (w : FsPath) (t : Nat) (st : DlState) (cat : Category) (a : String)
    (ha : a ≠ "") :
    processElement dl u w t st cat (some a) =
      (let d := downloadResource dl st.fs w st.extracted.length (urljoin u a) cat
       ({ fs := d.fs,
          extracted :=
            match d.path with
            | some pn => st.extracted ++ [⟨cat, urljoin u a, pn.1, pn.2⟩]
            | none => st.extracted,
          failed := st.failed,
          processed := st.processed + 1,
          events := st.events ++
            [(progressAt (st.processed + 1) t, statusMsg (st.processed + 1) t)] },
        ⟨cat, some a,
          match d.path with
          | some pn => some (fixSeps (joinPath (pn.1.drop w.length)))
          | none => some a,
          d.path.map Prod.fst, some d.fname, some (urljoin u a)⟩)) := by
  simp [processElement, ha]

theorem processElement_fs (dl : String → Except String Nat) (u : String)
    (w : FsPath) (t : Nat) (st : DlState) (cat : Category) (attr : Option String) :
    (processElement dl u w t st cat attr).1.fs = st.fs ∨
    ∃ n, (processElement dl u w t st cat attr).1.fs =
      (w ++ [Category.folder cat, n]) :: st.fs := by
  cases hlive : isLive attr with
  | false => rw [processElement_skip dl u w t st cat attr hlive]; exact Or.inl rfl
  | true =>
    cases attr with
    | none => simp [isLive] at hlive
    | some a =>
      have ha : a ≠ "" := by simpa [isLive] using hlive
      rw [processElement_live dl u w t st cat a ha]
      rcases downloadResource_cases dl st.fs w st.extracted.length (urljoin u a) cat with
        ⟨hp, hfs⟩ | ⟨m, sz, hp, hfs⟩
      · exact Or.inl (by simp [hfs])
      · exact Or.inr ⟨m, by simp [hfs]⟩

theorem processElement_failed (dl : String → Except String Nat) (u : String)
    (w : FsPath) (t : Nat) (st : DlState) (cat : Category) (attr : Option String) :
    (processElement dl u w t st cat attr).1.failed = st.failed := by
  cases hlive : isLive attr with
  | false => rw [processElement_skip dl u w t st cat attr hlive]
  | true =>
    cases attr with
    | none => simp [isLive] at hlive
    | some a =>
      have ha : a ≠ "" := by simpa [isLive] using hlive
      rw [processElement_live dl u w t st cat a ha]

theorem processElement_extracted (dl : String → Except String Nat) (u : String)
    (w : FsPath) (t : Nat) (st : DlState) (cat : Category) (attr : Option String) :
    (processElement dl u w t st cat attr).1.extracted = st.extracted ∨
    ∃ e, (processElement dl u w t st cat attr).1.extracted = st.extracted ++ [e] ∧
      ∃ n, e.localPath = w ++ [Category.folder e.rtype, n] := by
  cases hlive : isLive attr with
  | false => rw [processElement_skip dl u w t st cat attr hlive]; exact Or.inl rfl
  | true =>
    cases attr with
    | none => simp [isLive] at hlive
    | some a =>
      have ha : a ≠ "" := by simpa [isLive] using hlive
      rw [processElement_live dl u w t st cat a ha]
      rcases downloadResource_cases dl st.fs w st.extracted.length (urljoin u a) cat with
        ⟨hp, hfs⟩ | ⟨m, sz, hp, hfs⟩
      · exact Or.inl (by simp [hp])
      · exact Or.inr ⟨⟨cat, urljoin u a, w ++ [Category.folder cat, m], sz⟩,
          by simp [hp], m, rfl⟩

theorem processElement_counter (dl : String → Except String Nat) (u : String)
    (w : FsPath) (t : Nat) (st : DlState) (cat : Category) (attr : Option String) :
    (processElement dl u w t st cat attr).1.processed =
      st.processed + (if isLive attr then 1 else 0) ∧
    (processElement dl u w t st cat attr).1.events =
      st.events ++ (if isLive attr then
        [(progressAt (st.processed + 1) t, statusMsg (st.processed + 1) t)] else []) := by
  cases hlive : isLive attr with
  | false =>
    rw [processElement_skip dl u w t st cat attr hlive]
    exact ⟨rfl, by simp⟩
  | true =>
    cases attr with
    | none => simp [isLive] at hlive
    | some a =>
      have ha : a ≠ "" := by simpa [isLive] using hlive
      rw [processElement_live dl u w t st cat a ha]
      exact ⟨rfl, rfl⟩

theorem processElement_trace (dl : String → Except String Nat) (u : String)
    (w : FsPath) (t : Nat) (st : DlState) (cat : Category) (attr : Option String) :
    ((processElement dl u w t st cat attr).2.localPath = none →
      (processElement dl u w t st cat attr).2.newAttr =
        (processElement dl u w t st cat attr).2.origAttr) ∧
    (∀ p, (processElement dl u w t st cat attr).2.localPath = some p →
      ∃ n, p = w ++ [Category.folder (processElement dl u w t st cat attr).2.rtype, n] ∧
        (processElement dl u w t st cat attr).2.newAttr =
          some (fixSeps (Category.folder (processElement dl u w t st cat attr).2.rtype
            ++ "/" ++ n))) := by
  cases hlive : isLive attr with
  | false =>
    rw [processElement_skip dl u w t st cat attr hlive]
    exact ⟨fun _ => rfl, fun p hp => by simp at hp⟩
  | true =>
    cases attr with
    | none => simp [isLive] at hlive
    | some a =>
      have ha : a ≠ "" := by simpa [isLive] using hlive
      rw [processElement_live dl u w t st cat a ha]
      rcases downloadResource_cases dl st.fs w st.extracted.length (urljoin u a) cat with
        ⟨hp, hfs⟩ | ⟨m, sz, hp, hfs⟩
      · exact ⟨fun _ => by simp [hp], fun p hpp => by simp [hp] at hpp⟩
      · refine ⟨fun hnone => by simp [hp] at hnone, fun p hpp => ?_⟩
        simp only [hp, Option.map_some'] at hpp ⊢
        obtain rfl : w ++ [Category.folder cat, m] = p := by
          simpa using hpp
        refine ⟨m, rfl, ?_⟩
        have hdrop : (w ++ [Category.folder cat, m]).drop w.length =
            [Category.folder cat, m] := List.drop_left w [Category.folder cat, m]
        simp [hp, hdrop, joinPath_pair]

theorem processElement_extlen (dl : String → Except String Nat) (u : String)
    (w : FsPath) (t : Nat) (st : DlState) (cat : Category) (attr : Option String) :
    (processElement dl u w t st cat attr).1.extracted.length =
      st.extracted.length +
        (if (processElement dl u w t st cat attr).2.localPath.isSome then 1 else 0) := by
  cases hlive : isLive attr with
  | false => rw [processElement_skip dl u w t st cat attr hlive]; simp
  | true =>
    cases attr with
    | none => simp [isLive] at hlive
    | some a =>
      have ha : a ≠ "" := by simpa [isLive] using hlive
      rw [processElement_live dl u w t st cat a ha]
      rcases downloadResource_cases dl st.fs w st.extracted.length (urljoin u a) cat with
        ⟨hp, hfs⟩ | ⟨m, sz, hp, hfs⟩ <;> simp [hp]

theorem processElement_fname (dl : String → Except String Nat) (u : String)
    (w : FsPath) (t : Nat) (st : DlState) (cat : Category) (a : String)
    (ha : a ≠ "") :
    (processElement dl u w t st cat (some a)).2.fname =
      some (deriveFilename cat st.extracted.length (urljoin u a)) := by
  rw [processElement_live dl u w t st cat a ha]
  simp [downloadResource_fname]

/-! ## Induction lemmas for the element loop -/

/-- Number of elements the loop actually processes (non-empty URL
attribute present). -/
def liveCount (l : List (Category × Option String)) : Nat :=
  (l.filter fun ca => isLive ca.2).length

theorem processList_failed (dl : String → Except String Nat) (u : String)
    (w : FsPath) (t : Nat) :
    ∀ (l : List (Category × Option String)) (st : DlState),
    (processList dl u w t st l).1.failed = st.failed := by
  intro l
  induction l with
  | nil => intro st; rfl
  | cons ca rest ih =>
    intro st
    simp only [processList]
    rw [ih, processElement_failed]

theorem processList_length (dl : String → Except String Nat) (u : String)
    (w : FsPath) (t : Nat) :
    ∀ (l : List (Category × Option String)) (st : DlState),
    (processList dl u w t st l).2.length = l.length := by
  intro l
  induction l with
  | nil => intro st; rfl
  | cons ca rest ih =>
    intro st
    simp only [processList, List.length_cons]
    rw [ih]

theorem processList_fs_mem (dl : String → Except String Nat) (u : String)
    (w : FsPath) (t : Nat) :
    ∀ (l : List (Category × Option String)) (st : DlState) (p : FsPath),
    p ∈ (processList dl u w t st l).1.fs →
    p ∈ st.fs ∨ ∃ cat n, p = w ++ [Category.folder cat, n] := by
  intro l
  induction l with
  | nil => intro st p hp; exact Or.inl hp
  | cons ca rest ih =>
    intro st p hp
    simp only [processList] at hp
    rcases ih _ p hp with h | h
    · rcases processElement_fs dl u w t st ca.1 ca.2 with hfs | ⟨n, hfs⟩
      · rw [hfs] at h; exact Or.inl h
      · rw [hfs] at h
        rcases List.mem_cons.mp h with rfl | h'
        · exact Or.inr ⟨ca.1, n, rfl⟩
        · exact Or.inl h'
    · exact Or.inr h

theorem processList_extracted_mem (dl : String → Except String Nat) (u : String)
    (w : FsPath) (t : Nat) :
    ∀ (l : List (Category × Option String)) (st : DlState) (e : ExtractedResource),
    e ∈ (processList dl u w t st l).1.extracted →
    e ∈ st.extracted ∨ ∃ n, e.localPath = w ++ [Category.folder e.rtype, n] := by
  intro l
  induction l with
  | nil => intro st e he; exact Or.inl he
  | cons ca rest ih =>
    intro st e he
    simp only [processList] at he
    rcases ih _ e he with h | h
    · rcases processElement_extracted dl u w t st ca.1 ca.2 with hex | ⟨e', hex, n, hn⟩
      · rw [hex] at h; exact Or.inl h
      · rw [hex] at h
        rcases List.mem_append.mp h with h' | h'
        · exact Or.inl h'
        · rcases List.mem_singleton.mp h' with rfl
          exact Or.inr ⟨n, hn⟩
    · exact Or.inr h

theorem processList_trace_mem (dl : String → Except String Nat) (u : String)
    (w : FsPath) (t : Nat) :
    ∀ (l : List (Category × Option String)) (st : DlState) (tr : ElemTrace),
    tr ∈ (processList dl u w t st l).2 →
    (tr.localPath = none → tr.newAttr = tr.origAttr) ∧
    (∀ p, tr.localPath = some p →
      ∃ n, p = w ++ [Category.folder tr.rtype, n] ∧
        tr.newAttr = some (fixSeps (Category.folder tr.rtype ++ "/" ++ n))) := by
  intro l
  induction l with
  | nil => intro st tr htr; simp [processList] at htr
  | cons ca rest ih =>
    intro st tr htr
    simp only [processList, List.mem_cons] at htr
    rcases htr with rfl | htr
    · exact processElement_trace dl u w t st ca.1 ca.2
    · exact ih _ tr htr

theorem processList_extlen (dl : String → Except String Nat) (u : String)
    (w : FsPath) (t : Nat) :
    ∀ (l : List (Category × Option String)) (st : DlState),
    (processList dl u w t st l).1.extracted.length =
      st.extracted.length +
        ((processList dl u w t st l).2.filter
          (fun tr => tr.localPath.isSome)).length := by
  intro l
  induction l with
  | nil => intro st; simp [processList]
  | cons ca rest ih =>
    intro st
    simp only [processList]
    rw [ih, processElement_extlen]
    cases hs : (processElement dl u w t st ca.1 ca.2).2.localPath.isSome
    · simp [List.filter_cons, hs]
    · simp [List.filter_cons, hs]
      omega

theorem processList_counter (dl : String → Except String Nat) (u : String)
    (w : FsPath) (t : Nat) :
    ∀ (l : List (Category × Option String)) (st : DlState),
    (processList dl u w t st l).1.processed = st.processed + liveCount l ∧
    (processList dl u w t st l).1.events = st.events ++
      (List.range (liveCount l)).map
        (fun k => (progressAt (st.processed + k + 1) t,
                   statusMsg (st.processed + k + 1) t)) := by
  intro l
  induction l with
  | nil => intro st; simp [processList, liveCount]
  | cons ca rest ih =>
    intro st
    simp only [processList]
    obtain ⟨ihp, ihe⟩ := ih (processElement dl u w t st ca.1 ca.2).1
    obtain ⟨hp, he⟩ := processElement_counter dl u w t st ca.1 ca.2
    cases hlive : isLive ca.2 with
    | false =>
      simp only [hlive] at hp he
      simp only [if_neg Bool.false_ne_true, List.append_nil, Nat.add_zero] at hp he
      have hlc : liveCount (ca :: rest) = liveCount rest := by
        simp [liveCount, List.filter_cons, hlive]
      rw [ihp, ihe, hp, he, hlc]
      exact ⟨rfl, rfl⟩
    | true =>
      simp only [hlive, if_true] at hp he
      have hlc : liveCount (ca :: rest) = liveCount rest + 1 := by
        simp [liveCount, List.filter_cons, hlive]
      constructor
      · rw [ihp, hp, hlc]; omega
      · have htail : (List.range (liveCount rest)).map
            (fun k => (progressAt (st.processed + 1 + k + 1) t,
                       statusMsg (st.processed + 1 + k + 1) t)) =
            (List.range (liveCount rest)).map
              ((fun k => (progressAt (st.processed + k + 1) t,
                          statusMsg (st.processed + k + 1) t)) ∘ Nat.succ) := by
          apply List.map_congr_left
          intro k _
          simp only [Function.comp_apply]
          have harg : st.processed + Nat.succ k + 1 = st.processed + 1 + k + 1 := by
            omega
          rw [harg]
        rw [ihe, he, hp, hlc, List.range_succ_eq_map]
        simp only [List.map_cons, List.map_map, List.append_assoc,
          List.singleton_append, Nat.add_zero]
        rw [htail]

theorem processList_append (dl : String → Except String Nat) (u : String)
    (w : FsPath) (t : Nat) :
    ∀ (l1 l2 : List (Category × Option String)) (st : DlState),
    processList dl u w t st (l1 ++ l2) =
      ((processList dl u w t (processList dl u w t st l1).1 l2).1,
       (processList dl u w t st l1).2 ++
         (processList dl u w t (processList dl u w t st l1).1 l2).2) := by
  intro l1
  induction l1 with
  | nil => intro l2 st; simp [processList]
  | cons ca rest ih =>
    intro l2 st
    simp only [List.cons_append, processList, List.append_eq]
    rw [ih]

theorem processList_synth_at (dl : String → Except String Nat) (u : String)
    (w : FsPath) (t : Nat) (st0 : DlState) (hst0 : st0.extracted = [])
    (l1 l2 : List (Category × Option String)) (cat : Category) (a : String)
    (ha : a ≠ "")
    (hext : basename (unquote (urlPath (urljoin u a))) = "" ∨
      ((basename (unquote (urlPath (urljoin u a)))).data.any fun c => c == '.')
        = false) :
    ((processList dl u w t st0 (l1 ++ (cat, some a) :: l2)).2[l1.length]?.map
        ElemTrace.fname) =
      some (some ("resource_" ++
        Nat.repr (((processList dl u w t st0
          (l1 ++ (cat, some a) :: l2)).2.take l1.length).filter
            (fun tr => tr.localPath.isSome)).length ++
        cat.defaultExt)) := by
  have hlen : (processList dl u w t st0 l1).2.length = l1.length :=
    processList_length dl u w t l1 st0
  rw [processList_append dl u w t l1 ((cat, some a) :: l2) st0]
  simp only [processList]
  have hget : ∀ (x : ElemTrace) (rest : List ElemTrace),
      ((processList dl u w t st0 l1).2 ++ x :: rest)[l1.length]? = some x := by
    intro x rest
    rw [List.getElem?_append_right (le_of_eq hlen), hlen]
    simp
  have htake : ∀ (x : ElemTrace) (rest : List ElemTrace),
      ((processList dl u w t st0 l1).2 ++ x :: rest).take l1.length =
        (processList dl u w t st0 l1).2 := by
    intro x rest
    rw [← hlen]
    exact List.take_left _ _
  rw [hget, htake, Option.map_some',
    processElement_fname dl u w t (processList dl u w t st0 l1).1 cat a ha]
  have hextlen : (processList dl u w t st0 l1).1.extracted.length =
      ((processList dl u w t st0 l1).2.filter
        (fun tr => tr.localPath.isSome)).length := by
    have h := processList_extlen dl u w t l1 st0
    rw [hst0] at h
    simpa using h
  have hderive : deriveFilename cat (processList dl u w t st0 l1).1.extracted.length
      (urljoin u a) =
      "resource_" ++ Nat.repr (processList dl u w t st0 l1).1.extracted.length ++
        cat.defaultExt := by
    rcases hext with h | h
    · simp [deriveFilename, h]
    · simp [deriveFilename, h]
  rw [hderive, hextlen]

/-! ## The collision loop -/

theorem uniquifyAux_reach (taken : String → Bool) (orig : String) :
    ∀ (m counter fuel : Nat) (cur : String),
    taken cur = true →
    (∀ d, counter ≤ d → d < counter + m → taken (candidateName orig d) = true) →
    taken (candidateName orig (counter + m)) = false →
    m + 2 ≤ fuel →
    uniquifyAux taken orig cur counter fuel = candidateName orig (counter + m) := by
  intro m
  induction m with
  | zero =>
    intro counter fuel cur hcur hall hfree hfuel
    match fuel, hfuel with
    | f + 2, _ =>
      rw [Nat.add_zero] at hfree ⊢
      simp only [uniquifyAux, hcur, if_true]
      simp [uniquifyAux, hfree]
  | succ m ih =>
    intro counter fuel cur hcur hall hfree hfuel
    match fuel, hfuel with
    | f + 2, hf =>
      rw [uniquifyAux, if_pos hcur]
      have hc : taken (candidateName orig counter) = true :=
        hall counter (Nat.le_refl _) (by omega)
      have hstep := ih (counter + 1) (f + 1) (candidateName orig counter) hc
        (fun d hd1 hd2 => hall d (by omega) (by omega))
        (by rw [show counter + 1 + m = counter + (m + 1) from by omega]; exact hfree)
        (by omega)
      rw [hstep, show counter + 1 + m = counter + (m + 1) from by omega]

theorem uniqueTarget_eq (fs : FS) (dir : FsPath) (fname : String) (j : Nat)
    (hbase : (dir ++ [fname]) ∈ fs) (hj1 : 1 ≤ j) (hjle : j ≤ fs.length)
    (htaken : ∀ i, 1 ≤ i → i < j → (dir ++ [candidateName fname i]) ∈ fs)
    (hfree : (dir ++ [candidateName fname j]) ∉ fs) :
    uniqueTarget fs dir fname = dir ++ [candidateName fname j] := by
  unfold uniqueTarget
  have h := uniquifyAux_reach (fun s => decide ((dir ++ [s]) ∈ fs)) fname
    (j - 1) 1 (fs.length + 1) fname
    (by simpa using hbase)
    (fun d hd1 hd2 => by
      simp only [decide_eq_true_eq]
      exact htaken d hd1 (by omega))
    (by
      rw [show 1 + (j - 1) = j from by omega]
      simpa using hfree)
    (by omega)
  rw [h, show 1 + (j - 1) = j from by omega]

/-! ## Case lemmas for the pipeline -/

theorem body_fetch_error (cfg : Config) (env : Env)
    (elems : Category → List (Option String)) (url : String) (fs0 : FS)
    (e : String) (h : (fetchResult cfg env).2 = .error e) :
    extractWebsiteBody cfg env elems url fs0 =
      (⟨false, some e, none, [], []⟩, fs0,
       [(5, "初始化完成，开始提取网站...")] ++ (fetchResult cfg env).1, [], none) := by
  simp only [extractWebsiteBody, h]

theorem body_empty_html (cfg : Config) (env : Env)
    (elems : Category → List (Option String)) (url : String) (fs0 : FS)
    (h : (fetchResult cfg env).2 = .ok "") :
    extractWebsiteBody cfg env elems url fs0 =
      (⟨false, some "无法获取网站内容", none, [], []⟩, fs0,
       [(5, "初始化完成，开始提取网站...")] ++ (fetchResult cfg env).1, [], none) := by
  simp only [extractWebsiteBody, h]
  rfl

theorem body_archive_error (cfg : Config) (env : Env)
    (elems : Category → List (Option String)) (url : String) (fs0 : FS)
    (html e : String) (hok : (fetchResult cfg env).2 = .ok html)
    (hne : html ≠ "") (harch : env.archiveError = some e) :
    extractWebsiteBody cfg env elems url fs0 =
      (⟨false, some e, none, [], []⟩,
       zipPathOf url env.timestamp ::
         saveHtml (workDirOf url env.timestamp)
           (extractResources env.download url (workDirOf url env.timestamp)
             cfg.includeAssets elems fs0).1.fs,
       [(5, "初始化完成，开始提取网站...")] ++ (fetchResult cfg env).1 ++
         [(30, "网页内容获取完成，开始解析资源...")] ++
         (extractResources env.download url (workDirOf url env.timestamp)
           cfg.includeAssets elems fs0).1.events ++
         [(80, "资源提取完成，正在打包文件...")],
       (extractResources env.download url (workDirOf url env.timestamp)
         cfg.includeAssets elems fs0).2,
       none) := by
  simp only [extractWebsiteBody, hok, if_neg hne, createZipArchive, harch,
    zipPathOf]

theorem body_success (cfg : Config) (env : Env)
    (elems : Category → List (Option String)) (url : String) (fs0 : FS)
    (html : String) (hok : (fetchResult cfg env).2 = .ok html)
    (hne : html ≠ "") (harch : env.archiveError = none) :
    extractWebsiteBody cfg env elems url fs0 =
      (⟨true, none, some (zipPathOf url env.timestamp),
        (extractResources env.download url (workDirOf url env.timestamp)
          cfg.includeAssets elems fs0).1.extracted,
        (extractResources env.download url (workDirOf url env.timestamp)
          cfg.includeAssets elems fs0).1.failed⟩,
       zipPathOf url env.timestamp ::
         saveHtml (workDirOf url env.timestamp)
           (extractResources env.download url (workDirOf url env.timestamp)
             cfg.includeAssets elems fs0).1.fs,
       [(5, "初始化完成，开始提取网站...")] ++ (fetchResult cfg env).1 ++
         [(30, "网页内容获取完成，开始解析资源...")] ++
         (extractResources env.download url (workDirOf url env.timestamp)
           cfg.includeAssets elems fs0).1.events ++
         [(80, "资源提取完成，正在打包文件...")] ++ [(100, "提取完成！")],
       (extractResources env.download url (workDirOf url env.timestamp)
         cfg.includeAssets elems fs0).2,
       some ⟨walkEntries
               (zipPathOf url env.timestamp ::
                 saveHtml (workDirOf url env.timestamp)
                   (extractResources env.download url (workDirOf url env.timestamp)
                     cfg.includeAssets elems fs0).1.fs)
               (workDirOf url env.timestamp) ++ ["WebTwin_Info.txt"],
             infoContent url cfg.useSelenium env.manifestTime
               (extractResources env.download url (workDirOf url env.timestamp)
                 cfg.includeAssets elems fs0).1.extracted.length
               (extractResources env.download url (workDirOf url env.timestamp)
                 cfg.includeAssets elems fs0).1.failed.length⟩) := by
  simp only [extractWebsiteBody, hok, if_neg hne, createZipArchive, harch,
    zipPathOf]

theorem extractWebsite_eq (cfg : Config) (env : Env)
    (elems : Category → List (Option String)) (url : String) (fs0 : FS) :
    extractWebsite cfg env elems url fs0 =
      ⟨(extractWebsiteBody cfg env elems url fs0).1,
       (extractWebsiteBody cfg env elems url fs0).2.1.filter
         (fun p => !underDir (workDirOf url env.timestamp) p),
       (extractWebsiteBody cfg env elems url fs0).2.2.1,
       (extractWebsiteBody cfg env elems url fs0).2.2.2.1,
       (extractWebsiteBody cfg env elems url fs0).2.2.2.2,
       1⟩ := rfl

/-! ## Lemmas lifted to `extractResources` -/

theorem extractResources_fs_mem (dl : String → Except String Nat) (u : String)
    (w : FsPath) (inc : Bool) (elems : Category → List (Option String))
    (fs0 : FS) (p : FsPath)
    (hp : p ∈ (extractResources dl u w inc elems fs0).1.fs) :
    p ∈ fs0 ∨ ∃ cat n, p = w ++ [Category.folder cat, n] := by
  cases inc with
  | true =>
    simp only [extractResources, if_true] at hp
    exact processList_fs_mem dl u w (flatElems elems).length (flatElems elems)
      ⟨fs0, [], [], 0, [(35, discoveryMsg (flatElems elems).length)]⟩ p hp
  | false => exact Or.inl hp

theorem extractResources_failed (dl : String → Except String Nat) (u : String)
    (w : FsPath) (inc : Bool) (elems : Category → List (Option String))
    (fs0 : FS) :
    (extractResources dl u w inc elems fs0).1.failed = [] := by
  cases inc with
  | true =>
    simp only [extractResources, if_true]
    exact processList_failed dl u w (flatElems elems).length (flatElems elems) _
  | false => rfl

theorem extractResources_extracted_mem (dl : String → Except String Nat)
    (u : String) (w : FsPath) (inc : Bool)
    (elems : Category → List (Option String)) (fs0 : FS) (e : ExtractedResource)
    (he : e ∈ (extractResources dl u w inc elems fs0).1.extracted) :
    ∃ n, e.localPath = w ++ [Category.folder e.rtype, n] := by
  cases inc with
  | true =>
    simp only [extractResources, if_true] at he
    rcases processList_extracted_mem dl u w (flatElems elems).length
      (flatElems elems) ⟨fs0, [], [], 0, _⟩ e he with h | h
    · simp at h
    · exact h
  | false => simp [extractResources] at he

theorem extractResources_trace_mem (dl : String → Except String Nat) (u : String)
    (w : FsPath) (inc : Bool) (elems : Category → List (Option String))
    (fs0 : FS) (tr : ElemTrace)
    (htr : tr ∈ (extractResources dl u w inc elems fs0).2) :
    (tr.localPath = none → tr.newAttr = tr.origAttr) ∧
    (∀ p, tr.localPath = some p →
      ∃ n, p = w ++ [Category.folder tr.rtype, n] ∧
        tr.newAttr = some (fixSeps (Category.folder tr.rtype ++ "/" ++ n))) := by
  cases inc with
  | true =>
    simp only [extractResources, if_true] at htr
    exact processList_trace_mem dl u w (flatElems elems).length (flatElems elems)
      _ tr htr
  | false =>
    simp only [extractResources, if_false, Bool.false_eq_true] at htr
    obtain ⟨ca, hca, rfl⟩ := List.mem_map.mp htr
    exact ⟨fun _ => rfl, fun p hp => by simp at hp⟩

/-! ## Concrete runs used as witnesses and counterexamples -/

/-- Static-only configuration with assets enabled. -/
def cfgBasic : Config := ⟨false, false, true⟩

/-- Rendered-mode configuration with Selenium importable. -/
def cfgSel : Config := ⟨true, true, true⟩

/-- One script element. -/
def elemsOneJs : Category → List (Option String)
  | .js => [some "http://x.test/b.js"]
  | _ => []

/-- A script with a normal name followed by an extensionless one. -/
def elemsTwoJs : Category → List (Option String)
  | .js => [some "http://x.test/a.js", some "http://x.test/lib"]
  | _ => []

/-- A single extensionless script element. -/
def elemsOneLib : Category → List (Option String)
  | .js => [some "http://x.test/lib"]
  | _ => []

/-- No discovered elements. -/
def elemsNone : Category → List (Option String) := fun _ => []

/-- An environment whose asset downloads all fail. -/
def envDlFail : Env :=
  ⟨.error "no selenium", .ok "<html>", fun _ => .error "timeout", none, "ts", "mt"⟩

/-- An environment whose archive write fails after the file is created. -/
def envArchFail : Env :=
  ⟨.error "no selenium", .ok "<html>", fun _ => .ok 3, some "disk full", "ts", "mt"⟩

/-- An environment where only `http://x.test/lib` downloads successfully. -/
def envLibOnly : Env :=
  ⟨.error "no selenium", .ok "<html>",
   (fun u => if u = "http://x.test/lib" then .ok 5 else .error "404"),
   none, "ts", "mt"⟩

/-- An environment where every download succeeds. -/
def envAllOk : Env :=
  ⟨.error "no selenium", .ok "<html>", fun _ => .ok 7, none, "ts", "mt"⟩

/-- Rendered-mode environment whose driver fails to start but whose
static fetch succeeds. -/
def envRenderFail : Env :=
  ⟨.error "driver boom", .ok "<html>", fun _ => .error "x", none, "ts", "mt"⟩

/-! ## Claim theorems -/

/-- Claim C6: on every exit path of a run — success, fetch failure, or
packaging failure — the working directory is removed before the outcome
is returned (no file under it remains in the final filesystem), and
`_cleanup` runs exactly once per run. -/
theorem C6_cleanup_unconditional (cfg : Config) (env : Env)
    (elems : Category → List (Option String)) (url : String) (fs0 : FS) :
    ((extractWebsite cfg env elems url fs0).fs.all
      (fun p => !underDir (workDirOf url env.timestamp) p)) = true ∧
    (extractWebsite cfg env elems url fs0).cleanups = 1 := by
  rw [extractWebsite_eq]
  refine ⟨?_, rfl⟩
  simp only [List.all_eq_true, List.mem_filter]
  exact fun p hp => hp.2

/-- Claim C1 (code behavior at the failing input): a run over a page
with one script element whose download raises still succeeds and
continues, but the returned `failed_resources` list is empty — the
failure was swallowed by `_download_resource` (which returns `None`)
and never reached the recording `except` arm of `_extract_resources`,
as the element trace with `localPath = none` shows. -/
theorem C1_failed_download_not_recorded :
    (extractWebsite cfgBasic envDlFail elemsOneJs "http://x.test/" []).outcome.success
        = true ∧
    (extractWebsite cfgBasic envDlFail elemsOneJs "http://x.test/" []).outcome.failedResources
        = [] ∧
    (extractWebsite cfgBasic envDlFail elemsOneJs "http://x.test/" []).traces.map
        ElemTrace.localPath = [none] := by
  refine ⟨?_, ?_, ?_⟩ <;> decide

/-- Claim C2 (counterexample): a run whose archive write fails returns
a failure outcome, yet the partially written archive file is still on
disk when the caller receives the outcome — the claim's assertion that
the in-progress archive is removed before the error is surfaced fails
at this input. -/
theorem C2_counterexample :
    (extractWebsite cfgBasic envArchFail elemsOneJs "http://x.test/" []).outcome.success
        = false ∧
    (extractWebsite cfgBasic envArchFail elemsOneJs "http://x.test/" []).outcome.error
        = some "disk full" ∧
    ["downloads", "webtwin_x.test_ts.zip"] ∈
      (extractWebsite cfgBasic envArchFail elemsOneJs "http://x.test/" []).fs := by
  refine ⟨?_, ?_, ?_⟩ <;> decide

/-- Claim C2 (amended): if writing the archive fails, the run
terminates as a failure with the error surfaced in the outcome's error
field, and the working directory is removed; the in-progress archive
file, however, is not removed — it remains on disk. -/
theorem C2_amended_archive_failure (cfg : Config) (env : Env)
    (elems : Category → List (Option String)) (url : String) (fs0 : FS)
    (html e : String) (hok : (fetchResult cfg env).2 = .ok html)
    (hne : html ≠ "") (harch : env.archiveError = some e) :
    (extractWebsite cfg env elems url fs0).outcome.success = false ∧
    (extractWebsite cfg env elems url fs0).outcome.error = some e ∧
    zipPathOf url env.timestamp ∈ (extractWebsite cfg env elems url fs0).fs ∧
    ((extractWebsite cfg env elems url fs0).fs.all
      (fun p => !underDir (workDirOf url env.timestamp) p)) = true := by
  rw [extractWebsite_eq, body_archive_error cfg env elems url fs0 html e hok hne harch]
  refine ⟨rfl, rfl, ?_, ?_⟩
  · apply List.mem_filter.mpr
    exact ⟨List.mem_cons_self _ _, by simp [underDir_workDir_zip]⟩
  · simp only [List.all_eq_true, List.mem_filter]
    exact fun p hp => hp.2

/-- Claim C2 (witness for the amended theorem): the amended behavior
at a concrete run with a failing archive write. -/
theorem C2_witness :
    (extractWebsite cfgBasic envArchFail elemsOneJs "http://x.test/" []).outcome.success
        = false ∧
    (extractWebsite cfgBasic envArchFail elemsOneJs "http://x.test/" []).outcome.error
        = some "disk full" ∧
    zipPathOf "http://x.test/" "ts" ∈
      (extractWebsite cfgBasic envArchFail elemsOneJs "http://x.test/" []).fs ∧
    ((extractWebsite cfgBasic envArchFail elemsOneJs "http://x.test/" []).fs.all
      (fun p => !underDir (workDirOf "http://x.test/" "ts") p)) = true :=
  C2_amended_archive_failure cfgBasic envArchFail elemsOneJs "http://x.test/" []
    "<html>" "disk full" rfl (by decide) rfl

/-- Claim C5: when the target filename already exists in its category
directory, the collision loop of `_download_resource` appends
`_<counter>` before the extension, with the counter starting at 1 and
incrementing until the name is unique: if the candidates `1 ≤ i < j`
are all taken and candidate `j` is free, the chosen target is candidate
`j` — in particular a second resource resolving to the same base
filename receives the `_1` suffix.  The hypotheses constrain only the
category directory `dir`, so the outcome is independent of files
downloaded into other category directories. -/
theorem C5_collision_suffix (fs : FS) (dir : FsPath) (fname : String) (j : Nat)
    (hbase : (dir ++ [fname]) ∈ fs) (hj1 : 1 ≤ j) (hjle : j ≤ fs.length)
    (htaken : ∀ i, 1 ≤ i → i < j → (dir ++ [candidateName fname i]) ∈ fs)
    (hfree : (dir ++ [candidateName fname j]) ∉ fs) :
    uniqueTarget fs dir fname = dir ++ [candidateName fname j] ∧
    candidateName fname j =
      (splitext fname).1 ++ "_" ++ Nat.repr j ++ (splitext fname).2 :=
  ⟨uniqueTarget_eq fs dir fname j hbase hj1 hjle htaken hfree, rfl⟩

/-- Claim C5 (witness): with `css/a.css` already present, a second
`a.css` in the same category directory is stored as `a_1.css`. -/
theorem C5_witness :
    uniqueTarget [["downloads", "d", "css", "a.css"]] ["downloads", "d", "css"]
        "a.css" = ["downloads", "d", "css", "a_1.css"] ∧
    candidateName "a.css" 1 =
      (splitext "a.css").1 ++ "_" ++ Nat.repr 1 ++ (splitext "a.css").2 :=
  C5_collision_suffix [["downloads", "d", "css", "a.css"]]
    ["downloads", "d", "css"] "a.css" 1 (by decide) (by decide) (by decide)
    (fun i h1 h2 => absurd h2 (Nat.not_lt.mpr h1)) (by decide)

/-- Claim C8: for a rendered-mode run whose rendering fails, content
acquisition falls back to static mode: the outcome is a success
whenever the static fetch returns a non-empty page and packaging
succeeds (for any download oracle), and when the static fetch also
fails the run fails with the static fetch's error — only then is an
error surfaced. -/
theorem C8_render_fallback (cfg : Config) (env : Env)
    (elems : Category → List (Option String)) (url : String) (fs0 : FS)
    (e : String) (hsel : cfg.useSelenium = true)
    (hav : cfg.seleniumAvailable = true) (hrender : env.render = .error e) :
    (∀ html, env.static = .ok html → html ≠ "" → env.archiveError = none →
      (extractWebsite cfg env elems url fs0).outcome.success = true) ∧
    (∀ es, env.static = .error es →
      (extractWebsite cfg env elems url fs0).outcome.success = false ∧
      (extractWebsite cfg env elems url fs0).outcome.error =
        some ("HTTP请求失败: " ++ es)) := by
  have hfr : (fetchResult cfg env).2 = (extractWithRequests env).2 := by
    simp [fetchResult, hsel, hav, extractWithSelenium, hrender]
  constructor
  · intro html hst hne harch
    have hok : (fetchResult cfg env).2 = .ok html := by
      rw [hfr]; simp [extractWithRequests, hst]
    rw [extractWebsite_eq, body_success cfg env elems url fs0 html hok hne harch]
  · intro es hst
    have herr : (fetchResult cfg env).2 = .error ("HTTP请求失败: " ++ es) := by
      rw [hfr]; simp [extractWithRequests, hst]
    rw [extractWebsite_eq,
      body_fetch_error cfg env elems url fs0 ("HTTP请求失败: " ++ es) herr]
    exact ⟨rfl, rfl⟩

/-- Claim C8 (witness): a concrete rendered-mode run whose driver
fails to start succeeds through the static fallback. -/
theorem C8_witness :
    (extractWebsite cfgSel envRenderFail elemsOneJs "http://x.test/" []).outcome.success
      = true :=
  (C8_render_fallback cfgSel envRenderFail elemsOneJs "http://x.test/" []
    "driver boom" rfl rfl rfl).1 "<html>" rfl (by decide) rfl

/-- Claim C3 (counterexample): in a run whose first attempted resource
fails to download and whose second has an extensionless URL, the second
resource — the second one attempted, so the claim's running count of
attempts is 1 — is named `resource_0.js`, not `resource_1.js`: the
counter is `len(self.extracted_resources)`, the number of successful
downloads so far, not the number attempted. -/
theorem C3_counterexample :
    (extractWebsite cfgBasic envLibOnly elemsTwoJs "http://x.test/" []).traces.map
        ElemTrace.fname = [some "a.js", some "resource_0.js"] ∧
    (extractWebsite cfgBasic envLibOnly elemsTwoJs "http://x.test/" []).traces.map
        (fun tr => tr.localPath.isSome) = [false, true] ∧
    ("resource_0.js" : String) ≠ "resource_" ++ Nat.repr 1 ++ ".js" := by
  refine ⟨?_, ?_, ?_⟩ <;> decide

/-- Claim C3 (amended): for every resource whose URL path yields no
filename or an extensionless one, the downloader synthesizes
`resource_<n><default-ext-for-category>` where `<n>` is the running
count of resources successfully downloaded so far in the run (shared
across categories); since failed downloads do not advance it, the
count can repeat. -/
theorem C3_amended_synth_counter (dl : String → Except String Nat) (u : String)
    (w : FsPath) (elems : Category → List (Option String)) (fs0 : FS)
    (l1 l2 : List (Category × Option String)) (cat : Category) (a : String)
    (hsplit : flatElems elems = l1 ++ (cat, some a) :: l2) (ha : a ≠ "")
    (hext : basename (unquote (urlPath (urljoin u a))) = "" ∨
      ((basename (unquote (urlPath (urljoin u a)))).data.any fun c => c == '.')
        = false) :
    ((extractResources dl u w true elems fs0).2[l1.length]?.map ElemTrace.fname) =
      some (some ("resource_" ++
        Nat.repr (((extractResources dl u w true elems fs0).2.take
          l1.length).filter (fun tr => tr.localPath.isSome)).length ++
        cat.defaultExt)) := by
  have hmain := processList_synth_at dl u w (flatElems elems).length
    ⟨fs0, [], [], 0, [(35, discoveryMsg (flatElems elems).length)]⟩ rfl
    l1 l2 cat a ha hext
  have hR : extractResources dl u w true elems fs0 =
      processList dl u w (flatElems elems).length
        ⟨fs0, [], [], 0, [(35, discoveryMsg (flatElems elems).length)]⟩
        (flatElems elems) := by
    simp [extractResources]
  rw [hR, hsplit]
  rw [hsplit] at hmain
  exact hmain

/-- Claim C3 (witness for the amended theorem): the first resource of a
run has no successful downloads before it, so an extensionless URL is
stored as `resource_0<ext>`. -/
theorem C3_witness :
    ((extractResources envLibOnly.download "http://x.test/" ["downloads", "d"]
        true elemsOneLib []).2[(0 : Nat)]?.map ElemTrace.fname) =
      some (some ("resource_" ++
        Nat.repr (((extractResources envLibOnly.download "http://x.test/"
          ["downloads", "d"] true elemsOneLib []).2.take 0).filter
            (fun tr => tr.localPath.isSome)).length ++
        Category.defaultExt Category.js)) :=
  C3_amended_synth_counter envLibOnly.download "http://x.test/" ["downloads", "d"]
    elemsOneLib [] [] [] Category.js "http://x.test/lib" (by decide) (by decide)
    (Or.inr (by decide))

theorem fixSeps_folder (cat : Category) (n : String)
    (h : n.data.all (fun c => c != '\\') = true) :
    fixSeps (Category.folder cat ++ "/" ++ n) = Category.folder cat ++ "/" ++ n := by
  apply fixSeps_eq_self
  rw [data_append, data_append]
  simp only [List.all_append, Bool.and_eq_true]
  refine ⟨⟨?_, ?_⟩, h⟩
  · cases cat <;> decide
  · decide

/-- Claim C4: every element of a run's rewrite trace satisfies: if its
download succeeded its URL attribute was rewritten to the downloaded
file's path relative to the working directory joined with `/` (exactly
that relative path whenever the filename is backslash-free, the
separator substitution applying otherwise), and if the download failed
or was skipped the attribute is unchanged, so it still holds the
original URL — never a reference to a file the run did not create. -/
theorem C4_rewrite (cfg : Config) (env : Env)
    (elems : Category → List (Option String)) (url : String) (fs0 : FS)
    (tr : ElemTrace)
    (htr : tr ∈ (extractWebsite cfg env elems url fs0).traces) :
    (tr.localPath = none → tr.newAttr = tr.origAttr) ∧
    (∀ p, tr.localPath = some p →
      ∃ n, p = workDirOf url env.timestamp ++ [Category.folder tr.rtype, n] ∧
        tr.newAttr = some (fixSeps (Category.folder tr.rtype ++ "/" ++ n)) ∧
        (n.data.all (fun c => c != '\\') = true →
          tr.newAttr = some (Category.folder tr.rtype ++ "/" ++ n))) := by
  have htr' : tr ∈ (extractResources env.download url (workDirOf url env.timestamp)
      cfg.includeAssets elems fs0).2 := by
    cases hfe : (fetchResult cfg env).2 with
    | error e =>
      rw [extractWebsite_eq, body_fetch_error cfg env elems url fs0 e hfe] at htr
      exact absurd htr (List.not_mem_nil tr)
    | ok html =>
      by_cases hhtml : html = ""
      · subst hhtml
        rw [extractWebsite_eq, body_empty_html cfg env elems url fs0 hfe] at htr
        exact absurd htr (List.not_mem_nil tr)
      · cases harch : env.archiveError with
        | some e =>
          rw [extractWebsite_eq,
            body_archive_error cfg env elems url fs0 html e hfe hhtml harch] at htr
          exact htr
        | none =>
          rw [extractWebsite_eq,
            body_success cfg env elems url fs0 html hfe hhtml harch] at htr
          exact htr
  obtain ⟨h1, h2⟩ := extractResources_trace_mem env.download url
    (workDirOf url env.timestamp) cfg.includeAssets elems fs0 tr htr'
  refine ⟨h1, fun p hp => ?_⟩
  obtain ⟨n, hn, hattr⟩ := h2 p hp
  exact ⟨n, hn, hattr, fun hnb => by rw [hattr, fixSeps_folder tr.rtype n hnb]⟩

/-- The trace of the successfully downloaded extensionless resource of
the `envLibOnly` run, as produced by the loop. -/
def trC4 : ElemTrace :=
  ⟨.js, some "http://x.test/lib", some "js/resource_0.js",
   some ["downloads", "webtwin_x.test_ts", "js", "resource_0.js"],
   some "resource_0.js", some "http://x.test/lib"⟩

/-- Claim C4 (witness): the rewrite property at a concrete trace of a
concrete run. -/
theorem C4_witness :
    (trC4.localPath = none → trC4.newAttr = trC4.origAttr) ∧
    (∀ p, trC4.localPath = some p →
      ∃ n, p = workDirOf "http://x.test/" "ts" ++ [Category.folder trC4.rtype, n] ∧
        trC4.newAttr = some (fixSeps (Category.folder trC4.rtype ++ "/" ++ n)) ∧
        (n.data.all (fun c => c != '\\') = true →
          trC4.newAttr = some (Category.folder trC4.rtype ++ "/" ++ n))) :=
  C4_rewrite cfgBasic envLibOnly elemsTwoJs "http://x.test/" [] trC4 (by decide)

/-- Claim C9: in the download stage the progress events are exactly the
discovery report followed by one event per processed resource, the
`k`-th carrying `35 + (k+1)*40/total` and the count-naming status
string; the sequence is monotonically non-decreasing; and elements with
a missing or empty URL attribute are skipped: they emit no event, are
never counted as processed, and the loop records exactly one success
per trace with a written file and no failures at all. -/
theorem C9_progress_band (dl : String → Except String Nat) (u : String)
    (w : FsPath) (elems : Category → List (Option String)) (fs0 : FS) :
    (extractResources dl u w true elems fs0).1.events =
      (35, discoveryMsg (flatElems elems).length) ::
        (List.range (liveCount (flatElems elems))).map
          (fun k => (progressAt (k + 1) (flatElems elems).length,
                     statusMsg (k + 1) (flatElems elems).length)) ∧
    List.Chain' (fun a b => a.1 ≤ b.1)
      (extractResources dl u w true elems fs0).1.events ∧
    (extractResources dl u w true elems fs0).1.processed =
      liveCount (flatElems elems) ∧
    (extractResources dl u w true elems fs0).1.failed = [] ∧
    (extractResources dl u w true elems fs0).1.extracted.length =
      ((extractResources dl u w true elems fs0).2.filter
        (fun tr => tr.localPath.isSome)).length := by
  have hR : extractResources dl u w true elems fs0 =
      processList dl u w (flatElems elems).length
        ⟨fs0, [], [], 0, [(35, discoveryMsg (flatElems elems).length)]⟩
        (flatElems elems) := by
    simp [extractResources]
  obtain ⟨hp, he⟩ := processList_counter dl u w (flatElems elems).length
    (flatElems elems) ⟨fs0, [], [], 0, [(35, discoveryMsg (flatElems elems).length)]⟩
  have hmap : (List.range (liveCount (flatElems elems))).map
      (fun k => (progressAt (0 + k + 1) (flatElems elems).length,
                 statusMsg (0 + k + 1) (flatElems elems).length)) =
      (List.range (liveCount (flatElems elems))).map
        (fun k => (progressAt (k + 1) (flatElems elems).length,
                   statusMsg (k + 1) (flatElems elems).length)) := by
    apply List.map_congr_left
    intro k _
    rw [Nat.zero_add]
  have hev : (extractResources dl u w true elems fs0).1.events =
      (35, discoveryMsg (flatElems elems).length) ::
        (List.range (liveCount (flatElems elems))).map
          (fun k => (progressAt (k + 1) (flatElems elems).length,
                     statusMsg (k + 1) (flatElems elems).length)) := by
    rw [hR, he, ← hmap]
    rfl
  refine ⟨hev, ?_, ?_, extractResources_failed dl u w true elems fs0, ?_⟩
  · rw [hev]
    apply List.Pairwise.chain'
    rw [List.pairwise_cons]
    constructor
    · intro b hb
      obtain ⟨k, _, rfl⟩ := List.mem_map.mp hb
      exact Nat.le_add_right 35 _
    · rw [List.pairwise_map]
      apply (List.pairwise_lt_range _).imp
      intro i j hij
      have h40 : (i + 1) * 40 ≤ (j + 1) * 40 :=
        Nat.mul_le_mul_right 40 (by omega)
      exact Nat.add_le_add_left (Nat.div_le_div_right h40) 35
  · rw [hR, hp]
    simp
  · rw [hR]
    have h := processList_extlen dl u w (flatElems elems).length (flatElems elems)
      ⟨fs0, [], [], 0, [(35, discoveryMsg (flatElems elems).length)]⟩
    simpa using h

theorem folder_slash_ne_info (cat : Category) (n : String) :
    Category.folder cat ++ "/" ++ n ≠ "WebTwin_Info.txt" := by
  intro h
  have hm : '/' ∈ (Category.folder cat ++ "/" ++ n).data := by
    rw [data_append, data_append]
    exact List.mem_append.mpr (Or.inl (List.mem_append.mpr (Or.inr (by decide))))
  rw [h] at hm
  exact absurd hm (by decide)

theorem walk_no_info (url ts : String) (stfs fs0 : FS)
    (hmem : ∀ p ∈ stfs, p ∈ fs0 ∨
      ∃ cat n, p = workDirOf url ts ++ [Category.folder cat, n])
    (hfresh : ∀ p ∈ fs0, underDir (workDirOf url ts) p = false) :
    "WebTwin_Info.txt" ∉
      walkEntries (zipPathOf url ts :: saveHtml (workDirOf url ts) stfs)
        (workDirOf url ts) := by
  intro hin
  obtain ⟨p, hp, hjoin⟩ := List.mem_map.mp hin
  obtain ⟨hpmem, hcond⟩ := List.mem_filter.mp hp
  rw [Bool.and_eq_true] at hcond
  rcases List.mem_cons.mp hpmem with rfl | hpmem'
  · rw [underDir_workDir_zip] at hcond
    exact absurd hcond.1 (by simp)
  · rcases List.mem_cons.mp hpmem' with rfl | hpmem''
    · rw [List.drop_left] at hjoin
      exact absurd hjoin (by decide)
    · rcases hmem p hpmem'' with h0 | ⟨cat, n, rfl⟩
      · rw [hfresh p h0] at hcond
        exact absurd hcond.1 (by simp)
      · rw [List.drop_left, joinPath_pair] at hjoin
        exact folder_slash_ne_info cat n hjoin

/-- Claim C7: every produced archive ends with the manifest entry
`WebTwin_Info.txt`, which appears exactly once among the entries (no
walked asset can carry that name, as assets live in category
subdirectories and the page is `index.html`), and the manifest text is
built from counts equal to the lengths of the resources and failures
lists of the outcome the caller receives. -/
theorem C7_manifest_entry (cfg : Config) (env : Env)
    (elems : Category → List (Option String)) (url : String) (fs0 : FS)
    (hfresh : ∀ p ∈ fs0, underDir (workDirOf url env.timestamp) p = false)
    (hsucc : (extractWebsite cfg env elems url fs0).outcome.success = true) :
    (extractWebsite cfg env elems url fs0).archEntries.getLast? =
      some "WebTwin_Info.txt" ∧
    (extractWebsite cfg env elems url fs0).archEntries.count "WebTwin_Info.txt"
      = 1 ∧
    (extractWebsite cfg env elems url fs0).archManifest =
      some (infoContent url cfg.useSelenium env.manifestTime
        (extractWebsite cfg env elems url fs0).outcome.resources.length
        (extractWebsite cfg env elems url fs0).outcome.failedResources.length) := by
  cases hfe : (fetchResult cfg env).2 with
  | error e =>
    rw [extractWebsite_eq, body_fetch_error cfg env elems url fs0 e hfe] at hsucc
    exact absurd hsucc (by simp)
  | ok html =>
    by_cases hhtml : html = ""
    · subst hhtml
      rw [extractWebsite_eq, body_empty_html cfg env elems url fs0 hfe] at hsucc
      exact absurd hsucc (by simp)
    · cases harch : env.archiveError with
      | some e =>
        rw [extractWebsite_eq,
          body_archive_error cfg env elems url fs0 html e hfe hhtml harch] at hsucc
        exact absurd hsucc (by simp)
      | none =>
        rw [extractWebsite_eq,
          body_success cfg env elems url fs0 html hfe hhtml harch]
        have hnot := walk_no_info url env.timestamp
          (extractResources env.download url (workDirOf url env.timestamp)
            cfg.includeAssets elems fs0).1.fs fs0
          (fun p hp => extractResources_fs_mem env.download url
            (workDirOf url env.timestamp) cfg.includeAssets elems fs0 p hp)
          hfresh
        refine ⟨?_, ?_, rfl⟩
        · simp only [RunResult.archEntries, Option.map_some', Option.getD_some]
          exact List.getLast?_concat _
        · simp only [RunResult.archEntries, Option.map_some', Option.getD_some]
          rw [List.count_append]
          rw [List.count_eq_zero.mpr hnot]
          rfl

/-- Claim C7 (witness): the manifest properties at a concrete
successful run. -/
theorem C7_witness :
    (extractWebsite cfgBasic envAllOk elemsOneJs "http://x.test/" []).archEntries.getLast?
      = some "WebTwin_Info.txt" ∧
    (extractWebsite cfgBasic envAllOk elemsOneJs "http://x.test/" []).archEntries.count
      "WebTwin_Info.txt" = 1 ∧
    (extractWebsite cfgBasic envAllOk elemsOneJs "http://x.test/" []).archManifest =
      some (infoContent "http://x.test/" cfgBasic.useSelenium envAllOk.manifestTime
        (extractWebsite cfgBasic envAllOk elemsOneJs "http://x.test/" []).outcome.resources.length
        (extractWebsite cfgBasic envAllOk elemsOneJs "http://x.test/" []).outcome.failedResources.length) :=
  C7_manifest_entry cfgBasic envAllOk elemsOneJs "http://x.test/" []
    (fun p hp => absurd hp (List.not_mem_nil p)) (by decide)

/-- Claim C10: on a successful run every returned resource's local
path lies inside the working directory and no longer exists in the
filesystem handed back to the caller — the staging tree was deleted
before the return — while the archive at the returned output path does
persist. -/
theorem C10_local_paths_gone (cfg : Config) (env : Env)
    (elems : Category → List (Option String)) (url : String) (fs0 : FS)
    (hsucc : (extractWebsite cfg env elems url fs0).outcome.success = true) :
    ((extractWebsite cfg env elems url fs0).outcome.resources.all
      (fun r => underDir (workDirOf url env.timestamp) r.localPath &&
        !(decide (r.localPath ∈ (extractWebsite cfg env elems url fs0).fs))))
      = true ∧
    (extractWebsite cfg env elems url fs0).outcome.outputPath =
      some (zipPathOf url env.timestamp) ∧
    zipPathOf url env.timestamp ∈ (extractWebsite cfg env elems url fs0).fs := by
  cases hfe : (fetchResult cfg env).2 with
  | error e =>
    rw [extractWebsite_eq, body_fetch_error cfg env elems url fs0 e hfe] at hsucc
    exact absurd hsucc (by simp)
  | ok html =>
    by_cases hhtml : html = ""
    · subst hhtml
      rw [extractWebsite_eq, body_empty_html cfg env elems url fs0 hfe] at hsucc
      exact absurd hsucc (by simp)
    · cases harch : env.archiveError with
      | some e =>
        rw [extractWebsite_eq,
          body_archive_error cfg env elems url fs0 html e hfe hhtml harch] at hsucc
        exact absurd hsucc (by simp)
      | none =>
        rw [extractWebsite_eq,
          body_success cfg env elems url fs0 html hfe hhtml harch]
        refine ⟨?_, rfl, ?_⟩
        · simp only [List.all_eq_true]
          intro r hr
          obtain ⟨n, hn⟩ := extractResources_extracted_mem env.download url
            (workDirOf url env.timestamp) cfg.includeAssets elems fs0 r hr
          rw [Bool.and_eq_true]
          refine ⟨by rw [hn]; exact underDir_append _ _, ?_⟩
          rw [Bool.not_eq_true', decide_eq_false_iff_not]
          intro hmem
          obtain ⟨_, hcond⟩ := List.mem_filter.mp hmem
          rw [hn] at hcond
          simp [underDir_append] at hcond
        · apply List.mem_filter.mpr
          exact ⟨List.mem_cons_self _ _, by simp [underDir_workDir_zip]⟩

/-- Claim C10 (witness): the property at a concrete successful run with
one downloaded resource. -/
theorem C10_witness :
    ((extractWebsite cfgBasic envAllOk elemsOneJs "http://x.test/" []).outcome.resources.all
      (fun r => underDir (workDirOf "http://x.test/" "ts") r.localPath &&
        !(decide (r.localPath ∈
          (extractWebsite cfgBasic envAllOk elemsOneJs "http://x.test/" []).fs))))
      = true ∧
    (extractWebsite cfgBasic envAllOk elemsOneJs "http://x.test/" []).outcome.outputPath =
      some (zipPathOf "http://x.test/" "ts") ∧
    zipPathOf "http://x.test/" "ts" ∈
      (extractWebsite cfgBasic envAllOk elemsOneJs "http://x.test/" []).fs :=
  C10_local_paths_gone cfgBasic envAllOk elemsOneJs "http://x.test/" [] (by decide)

end WebTwin
